import Mathlib

/-!
Shallow embedding of the expense-tracker REST backend
(src/controllers/expenseController.js, src/middleware/validationMiddleware.js,
src/models/expenseModel.js, src/routes/expenseRoutes.js).

The document database is a list of expense documents.  MongoDB guarantees a
unique index on `_id`; theorems that need it take a `Nodup` hypothesis on the
list of ids.  JS numbers are modelled as rationals, dates as
(year, month, sub) triples ordered lexicographically (`sub` encodes the
day-and-time position inside the month, so `$year`/`$month` are projections
and date comparison is the lexicographic order).  `toFixed(2)` followed by
`parseFloat` is modelled as rounding to two decimal places over ℚ.
-/

/-- A calendar date/time: `$year` and `$month` of MongoDB are the two
projections, `sub` is the position within the month.  Real timestamps compare
lexicographically on (year, month, within-month position). -/
structure Date where
  year : Int
  month : Nat
  sub : Nat
deriving DecidableEq, Repr

/-- Lexicographic order on dates; this is how `$gte`/`$lte` and
`sort({date: -1})` compare date values. -/
def Date.le (a b : Date) : Prop :=
  a.year < b.year ∨ (a.year = b.year ∧ (a.month < b.month ∨ (a.month = b.month ∧ a.sub ≤ b.sub)))

instance : DecidableRel Date.le := fun a b => by
  unfold Date.le; infer_instance

theorem Date.le_total (a b : Date) : Date.le a b ∨ Date.le b a := by
  unfold Date.le; omega

theorem Date.le_trans {a b c : Date} (h1 : Date.le a b) (h2 : Date.le b c) : Date.le a c := by
  unfold Date.le at *; omega

/-- The nine allowed categories of `expenseSchema` and of the `isIn` check of
`validateExpense` / `validateExpenseUpdate`. -/
def validCategories : List String :=
  ["Food", "Transportation", "Entertainment", "Healthcare", "Shopping", "Bills",
   "Education", "Travel", "Other"]

/-- The `trim()` sanitizer of the express-validator chains (String trim):
drops leading and trailing whitespace.  Modelled over the character list so
that concrete instances evaluate. -/
def jsTrim (s : String) : String :=
  ⟨((s.data.dropWhile Char.isWhitespace).reverse.dropWhile Char.isWhitespace).reverse⟩

/-- An expense document as stored by the `Expense` model: `_id`, `title`,
`amount`, `category`, `date`, `user` (ids are opaque; we use naturals). -/
structure Expense where
  id : Nat
  title : String
  amount : ℚ
  category : String
  date : Date
  user : Nat
deriving DecidableEq, Repr

/-- The database: the `expenses` collection. -/
abbrev Db := List Expense

/-- One awaited database operation of a handler, used to count the
queries/aggregations a request executes. -/
inductive DbOp
  | create
  | find
  | findOne
  | countDocuments
  | aggregate
  | save
  | findByIdAndDelete
deriving DecidableEq, Repr

/-- `sort({date: -1})`: descending by date.  Stable insertion sort, matching
the stable sort of the database / of `Array.prototype.sort`. -/
def dateDesc (a b : Expense) : Prop := Date.le b.date a.date

instance : DecidableRel dateDesc := fun a b => by
  unfold dateDesc; infer_instance

instance : IsTotal Expense dateDesc :=
  ⟨fun a b => Date.le_total b.date a.date⟩

instance : IsTrans Expense dateDesc :=
  ⟨fun _ _ _ h1 h2 => Date.le_trans h2 h1⟩

/-- The list of a user's documents, in database order: the part of the state
that `{ user: req.user._id }` queries can see. -/
def userDocs (u : Nat) (db : Db) : List Expense :=
  db.filter (fun e => e.user = u)

/-- `Expense.findOne({ _id: i, user: u })`: first document matching both. -/
def findOneByIdUser (i u : Nat) (db : Db) : Option Expense :=
  db.find? (fun e => e.id = i && e.user = u)

/-- `expense.save()` after mutating a fetched document: writes the document
back by `_id` (replaces the first document with that id). -/
def saveById (x : Expense) : Db → Db
  | [] => []
  | e :: es => if e.id = x.id then x :: es else e :: saveById x es

/-- `Expense.findByIdAndDelete(i)`: removes the (first) document with id `i`. -/
def deleteById (i : Nat) : Db → Db
  | [] => []
  | e :: es => if e.id = i then es else e :: deleteById i es

/-! ### Request bodies and express-validator chains -/

/-- The `0.01` lower bound of `isFloat({ min: 0.01 })` and of the schema's
`min` option, as a normalised rational (so that concrete validations
evaluate); `minAmount_eq` identifies it with `1/100`. -/
def minAmount : ℚ := ⟨1, 100, by norm_num, by norm_num⟩


/-- A request body for POST / PUT `/api/expenses`.
`title`: raw string when present (the `trim()` sanitizer is applied at the
validation/consumption points).  `amount`: `some none` means present but
non-numeric, `some (some a)` means it parses to the number `a`.  `date`:
`some none` means present but not valid ISO 8601, `some (some d)` means it
parses to `d`. -/
structure ExpenseBody where
  title : Option String
  amount : Option (Option ℚ)
  category : Option String
  date : Option (Option Date)
deriving DecidableEq, Repr

/-- `validateExpense` (POST): title required, nonempty after trim, at most 100
characters; amount required, numeric, at least 0.01; category required, one of
the nine values; date optional but ISO 8601 when present. -/
def validateExpense (b : ExpenseBody) : Bool :=
  (match b.title with
   | none => false
   | some t => !(jsTrim t = "") && (jsTrim t).length ≤ 100) &&
  (match b.amount with
   | none => false
   | some none => false
   | some (some a) => minAmount ≤ a) &&
  (match b.category with
   | none => false
   | some c => validCategories.contains c) &&
  (match b.date with
   | none => true
   | some none => false
   | some (some _) => true)

/-- `validateExpenseUpdate` (PUT): every field optional; when present, the
same checks as on creation. -/
def validateExpenseUpdate (b : ExpenseBody) : Bool :=
  (match b.title with
   | none => true
   | some t => !(jsTrim t = "") && (jsTrim t).length ≤ 100) &&
  (match b.amount with
   | none => true
   | some none => false
   | some (some a) => minAmount ≤ a) &&
  (match b.category with
   | none => true
   | some c => validCategories.contains c) &&
  (match b.date with
   | none => true
   | some none => false
   | some (some _) => true)

/-! ### GET /api/expenses — getExpenses -/

/-- Query string of GET /api/expenses.  `page` and `limit` are `none` when the
parameter is absent (the destructuring defaults them to 1 and 10). -/
structure ListQuery where
  category : Option String
  startDate : Option Date
  endDate : Option Date
  page : Option Nat
  limit : Option Nat
deriving Repr

/-- The filter object built by `getExpenses`: user, optional category,
optional inclusive `$gte`/`$lte` date range. -/
def matchesListFilter (u : Nat) (q : ListQuery) (e : Expense) : Bool :=
  decide (e.user = u) &&
  (match q.category with
   | none => true
   | some c => decide (e.category = c)) &&
  (match q.startDate with
   | none => true
   | some s => decide (Date.le s e.date)) &&
  (match q.endDate with
   | none => true
   | some d => decide (Date.le e.date d))

structure Pagination where
  currentPage : Nat
  totalPages : Nat
  totalExpenses : Nat
  hasNextPage : Bool
  hasPrevPage : Bool
deriving DecidableEq, Repr

structure ListResponse where
  status : Nat
  message : String
  data : List Expense
  pagination : Pagination
deriving Repr

/-- `getExpenses`: filter, sort by date descending, `skip((page-1)*limit)`,
`limit(limit)`, then `countDocuments` for the pagination block
(`totalPages = Math.ceil(total / limit)`, here ℕ-ceiling division). -/
def getExpenses (db : Db) (u : Nat) (q : ListQuery) : ListResponse × List DbOp :=
  let filtered := db.filter (matchesListFilter u q)
  let pageNum := q.page.getD 1
  let limitNum := q.limit.getD 10
  let skip := (pageNum - 1) * limitNum
  let expenses := ((List.insertionSort dateDesc filtered).drop skip).take limitNum
  let totalExpenses := filtered.length
  let totalPages := (totalExpenses + limitNum - 1) / limitNum
  (⟨200, "Expenses retrieved successfully", expenses,
    ⟨pageNum, totalPages, totalExpenses,
     decide (pageNum < totalPages), decide (pageNum > 1)⟩⟩,
   [DbOp.find, DbOp.countDocuments])

/-! ### GET /api/expenses/:id — getExpenseById -/

/-- The detail view the controller builds from a fetched document
(`{ id, title, amount, category, date }`). -/
structure ExpenseView where
  id : Nat
  title : String
  amount : ℚ
  category : String
  date : Date
deriving DecidableEq, Repr

def Expense.view (e : Expense) : ExpenseView :=
  ⟨e.id, e.title, e.amount, e.category, e.date⟩

structure DetailResponse where
  status : Nat
  message : String
  data : Option ExpenseView
deriving DecidableEq, Repr

/-- `getExpenseById`.  The `:id` route parameter is `none` when it is not a
well-formed ObjectId: mongoose then raises a `CastError` while building the
`findOne` query (before any database round trip), which the catch block maps
to 400 "Invalid expense ID format". -/
def getExpenseById (db : Db) (u : Nat) (idParam : Option Nat) :
    DetailResponse × List DbOp :=
  match idParam with
  | none => (⟨400, "Invalid expense ID format", none⟩, [])
  | some i =>
    match findOneByIdUser i u db with
    | none => (⟨404, "Expense not found", none⟩, [DbOp.findOne])
    | some e => (⟨200, "Expense details retrieved successfully", some e.view⟩,
                 [DbOp.findOne])

/-! ### POST /api/expenses — addExpense -/

structure AddResponse where
  status : Nat
  message : String
  data : Option Expense
deriving DecidableEq, Repr

/-- `addExpense`: if `validationResult` carries errors, respond
400 "Validation failed" without touching the database; otherwise
`Expense.create({title, amount: parseFloat(amount), category,
date: date || new Date(), user: req.user._id})` and respond 201.
`freshId` is the ObjectId the database generates, `now` is `new Date()`.
The `trim()` sanitizer of the validation chain has rewritten `title` to its
trimmed form before the controller reads it. -/
def addExpense (db : Db) (u : Nat) (freshId : Nat) (now : Date) (b : ExpenseBody) :
    AddResponse × Db × List DbOp :=
  if validateExpense b then
    let e : Expense :=
      { id := freshId
        title := jsTrim (b.title.getD "")
        amount := (b.amount.getD none).getD 0
        category := b.category.getD ""
        date := match b.date with
                | some (some d) => d
                | _ => now
        user := u }
    (⟨201, "Expense added successfully", some e⟩, db ++ [e],
     [DbOp.create])
  else
    (⟨400, "Validation failed", none⟩, db, [])

/-! ### PUT /api/expenses/:id — updateExpense -/

structure UpdateResponse where
  status : Nat
  message : String
  data : Option ExpenseView
deriving DecidableEq, Repr

/-- The field mutations of `updateExpense` on the fetched document:
`expense.title = title || expense.title` (the sanitized title is trimmed;
falsy means the empty string), `expense.amount = amount ? parseFloat(amount) :
expense.amount` (falsy means absent or the number 0), `expense.category =
category || expense.category`, `expense.date = date ? new Date(date) :
expense.date`.  `_id` and `user` are not assigned. -/
def applyUpdate (b : ExpenseBody) (e : Expense) : Expense :=
  { e with
    title := match b.title with
             | some t => if jsTrim t = "" then e.title else jsTrim t
             | none => e.title
    amount := match b.amount with
              | some (some a) => if a = 0 then e.amount else a
              | _ => e.amount
    category := match b.category with
                | some c => if c = "" then e.category else c
                | none => e.category
    date := match b.date with
            | some (some d) => d
            | _ => e.date }

/-- `updateExpense`: validation first (400 "Validation failed"), then
`findOne({_id, user})` — a malformed id raises `CastError`
(400 "Invalid expense ID format"), a missing match yields
404 "Expense not found" — then the field mutations and `save()`. -/
def updateExpense (db : Db) (u : Nat) (idParam : Option Nat) (b : ExpenseBody) :
    UpdateResponse × Db × List DbOp :=
  if validateExpenseUpdate b then
    match idParam with
    | none => (⟨400, "Invalid expense ID format", none⟩, db, [])
    | some i =>
      match findOneByIdUser i u db with
      | none => (⟨404, "Expense not found", none⟩, db, [DbOp.findOne])
      | some e =>
        let e' := applyUpdate b e
        (⟨200, "Expense updated successfully", some e'.view⟩, saveById e' db,
         [DbOp.findOne, DbOp.save])
  else
    (⟨400, "Validation failed", none⟩, db, [])

/-! ### DELETE /api/expenses/:id — deleteExpense -/

structure DeleteResponse where
  status : Nat
  message : String
  deletedExpense : Option ExpenseView
deriving DecidableEq, Repr

/-- `deleteExpense`: `findOne({_id, user})` (CastError → 400, no match → 404),
then `findByIdAndDelete(req.params.id)`; the response carries the fetched
document's former field values. -/
def deleteExpense (db : Db) (u : Nat) (idParam : Option Nat) :
    DeleteResponse × Db × List DbOp :=
  match idParam with
  | none => (⟨400, "Invalid expense ID format", none⟩, db, [])
  | some i =>
    match findOneByIdUser i u db with
    | none => (⟨404, "Expense not found", none⟩, db, [DbOp.findOne])
    | some e =>
      (⟨200, "Expense deleted successfully", some e.view⟩, deleteById i db,
       [DbOp.findOne, DbOp.findByIdAndDelete])

/-! ### GET /api/expenses/stats — getExpenseStats -/

/-- Query of GET /api/expenses/stats: the optional date range. -/
structure StatsQuery where
  startDate : Option Date
  endDate : Option Date
deriving Repr

/-- The `$match` stage of all three aggregations: user plus the optional
inclusive date range. -/
def matchesStatsFilter (u : Nat) (q : StatsQuery) (e : Expense) : Bool :=
  decide (e.user = u) &&
  (match q.startDate with
   | none => true
   | some s => decide (Date.le s e.date)) &&
  (match q.endDate with
   | none => true
   | some d => decide (Date.le e.date d))

/-- Distinct values of `key` over a list, in order of first appearance —
the group keys a `$group` stage produces (and, for the summary endpoint,
the `Object.keys` insertion order). -/
def firstKeys {κ : Type} [DecidableEq κ] (key : Expense → κ) : List Expense → List κ
  | [] => []
  | e :: es => key e :: (firstKeys key es).filter (fun k => k ≠ key e)

/-- Sum of the amounts of the documents of a list whose `key` equals `k`
(the `$sum: '$amount'` accumulator of a group). -/
def sumAmounts {κ : Type} [DecidableEq κ] (key : Expense → κ) (k : κ) (l : List Expense) : ℚ :=
  ((l.filter (fun e => key e = k)).map Expense.amount).sum

/-- Number of documents of a list whose `key` equals `k`
(the `$sum: 1` accumulator of a group). -/
def countKey {κ : Type} [DecidableEq κ] (key : Expense → κ) (k : κ) (l : List Expense) : Nat :=
  (l.filter (fun e => key e = k)).length

structure TotalStats where
  totalAmount : ℚ
  totalExpenses : Nat
  avgAmount : ℚ
deriving DecidableEq, Repr

structure CategoryStat where
  category : String
  totalAmount : ℚ
  count : Nat
deriving DecidableEq, Repr

structure MonthStat where
  year : Int
  month : Nat
  totalAmount : ℚ
  count : Nat
deriving DecidableEq, Repr

/-- `$sort: { totalAmount: -1 }` on category groups. -/
def catAmountDesc (a b : CategoryStat) : Prop := b.totalAmount ≤ a.totalAmount

instance : DecidableRel catAmountDesc := fun a b => by
  unfold catAmountDesc; infer_instance

instance : IsTotal CategoryStat catAmountDesc :=
  ⟨fun a b => le_total b.totalAmount a.totalAmount⟩

instance : IsTrans CategoryStat catAmountDesc :=
  ⟨fun _ _ _ h1 h2 => le_trans h2 h1⟩

/-- `$sort: { '_id.year': -1, '_id.month': -1 }` on monthly groups. -/
def monthDesc (a b : MonthStat) : Prop :=
  b.year < a.year ∨ (b.year = a.year ∧ b.month ≤ a.month)

instance : DecidableRel monthDesc := fun a b => by
  unfold monthDesc; infer_instance

instance : IsTotal MonthStat monthDesc := ⟨by intro a b; unfold monthDesc; omega⟩

instance : IsTrans MonthStat monthDesc := ⟨by intro a b c; unfold monthDesc; omega⟩

/-- The category groups of the second aggregation, before sorting. -/
def categoryGroups (ms : List Expense) : List CategoryStat :=
  (firstKeys Expense.category ms).map
    (fun c => ⟨c, sumAmounts Expense.category c ms, countKey Expense.category c ms⟩)

/-- The (year, month) groups of the third aggregation, before sorting. -/
def monthlyGroups (ms : List Expense) : List MonthStat :=
  (firstKeys (fun e => (e.date.year, e.date.month)) ms).map
    (fun ym => ⟨ym.1, ym.2,
      sumAmounts (fun e => (e.date.year, e.date.month)) ym ms,
      countKey (fun e => (e.date.year, e.date.month)) ym ms⟩)

structure StatsData where
  total : TotalStats
  byCategory : List CategoryStat
  monthly : List MonthStat
deriving Repr

structure StatsResponse where
  status : Nat
  message : String
  data : StatsData
deriving Repr

/-- `getExpenseStats`: three aggregation pipelines over the same `$match`.
The first groups everything into one document with `$sum`/`$sum: 1`/`$avg`
(an empty pipeline result is replaced by the zero object); the second groups
by category and sorts by totalAmount descending; the third groups by
(`$year`, `$month`) of the date, sorts by year then month descending and
keeps at most 6 groups. -/
def getExpenseStats (db : Db) (u : Nat) (q : StatsQuery) : StatsResponse × List DbOp :=
  let ms := db.filter (matchesStatsFilter u q)
  let total : TotalStats :=
    if ms.length = 0 then ⟨0, 0, 0⟩
    else ⟨(ms.map Expense.amount).sum, ms.length,
          (ms.map Expense.amount).sum / ms.length⟩
  let byCategory := List.insertionSort catAmountDesc (categoryGroups ms)
  let monthly := (List.insertionSort monthDesc (monthlyGroups ms)).take 6
  (⟨200, "Expense statistics retrieved successfully", ⟨total, byCategory, monthly⟩⟩,
   [DbOp.aggregate, DbOp.aggregate, DbOp.aggregate])

/-! ### GET /api/expenses/summary — getExpenseSummary -/

/-- `parseFloat(x.toFixed(2))`: round to two decimal places. -/
def round2 (q : ℚ) : ℚ := (round (q * 100) : ℚ) / 100

structure BreakdownEntry where
  category : String
  totalAmount : ℚ
  percentage : ℚ
deriving DecidableEq, Repr

/-- The `.sort((a, b) => b.totalAmount - a.totalAmount)` comparator:
descending by (rounded) totalAmount. -/
def breakdownDesc (a b : BreakdownEntry) : Prop := b.totalAmount ≤ a.totalAmount

instance : DecidableRel breakdownDesc := fun a b => by
  unfold breakdownDesc; infer_instance

instance : IsTotal BreakdownEntry breakdownDesc :=
  ⟨fun a b => le_total b.totalAmount a.totalAmount⟩

instance : IsTrans BreakdownEntry breakdownDesc :=
  ⟨fun _ _ _ h1 h2 => le_trans h2 h1⟩

structure SummaryData where
  totalExpenses : Nat
  totalAmount : ℚ
  categoryBreakdown : List BreakdownEntry
  expenses : List ExpenseView
deriving Repr

structure SummaryResponse where
  status : Nat
  message : String
  data : SummaryData
deriving Repr

/-- `getExpenseSummary`: fetch all of the user's documents sorted by date
descending; accumulate `categoryTotals` and `totalAmount` over them; build
`categoryBreakdown` from the keys of `categoryTotals` (insertion order =
first appearance), rounding the totals and the percentages to two decimals,
sorted by totalAmount descending; return it with the mapped expense list. -/
def getExpenseSummary (db : Db) (u : Nat) : SummaryResponse × List DbOp :=
  let expenses := List.insertionSort dateDesc (db.filter (fun e => e.user = u))
  let totalAmount := (expenses.map Expense.amount).sum
  let categoryBreakdown :=
    List.insertionSort breakdownDesc
      ((firstKeys Expense.category expenses).map (fun c =>
        ⟨c, round2 (sumAmounts Expense.category c expenses),
         round2 (sumAmounts Expense.category c expenses / totalAmount * 100)⟩))
  (⟨200, "Expense summary retrieved successfully",
    ⟨expenses.length, round2 totalAmount, categoryBreakdown,
     expenses.map Expense.view⟩⟩,
   [DbOp.find])

/-! ### Definitions taken from the specification wording, for comparison -/

/-- The rejection condition of POST /api/expenses exactly as the
specification states it: the body's title is empty after trimming or exceeds
100 characters (an absent title is empty), or amount is non-numeric (absent
included) or less than 0.01, or category is not one of the nine values
(absent included), or a provided date is not valid ISO 8601. -/
def c6BadBody (b : ExpenseBody) : Prop :=
  (match b.title with
   | none => True
   | some t => jsTrim t = "" ∨ 100 < (jsTrim t).length) ∨
  (match b.amount with
   | none => True
   | some none => True
   | some (some a) => a < (1 : ℚ)/100) ∨
  (match b.category with
   | none => True
   | some c => ¬ c ∈ validCategories) ∨
  b.date = some none

/-! ### Mutating operations, for the store invariant -/

/-- One mutating request against the expense store: a POST (add) or a PUT
(update), with the authenticated user and its inputs. -/
inductive MutOp where
  | addOp (u freshId : Nat) (now : Date) (b : ExpenseBody)
  | updateOp (u : Nat) (idParam : Option Nat) (b : ExpenseBody)

/-- The database state after one mutating request (whether it succeeded or
was rejected). -/
def applyMutOp (db : Db) : MutOp → Db
  | .addOp u f now b => (addExpense db u f now b).2.1
  | .updateOp u ip b => (updateExpense db u ip b).2.1

/-- The document invariant enforced by the validation chains and the schema:
a trimmed, nonempty title of at most 100 characters, an amount of at least
0.01, and one of the nine categories.  (The date field is always present in
the model, as the schema requires.) -/
def ValidDoc (e : Expense) : Prop :=
  (∃ raw : String, e.title = jsTrim raw) ∧ e.title ≠ "" ∧ e.title.length ≤ 100 ∧
  (1 : ℚ)/100 ≤ e.amount ∧ e.category ∈ validCategories

/-! ### Helper lemmas about the embedded operations -/

theorem minAmount_eq : minAmount = (1 : ℚ)/100 := by
  norm_num [minAmount, Rat.mk'_eq_divInt, Rat.divInt_eq_div]


theorem matchesListFilter_user {u : Nat} {q : ListQuery} {e : Expense}
    (h : matchesListFilter u q e = true) : e.user = u := by
  unfold matchesListFilter at h
  simp only [Bool.and_eq_true, decide_eq_true_eq] at h
  exact h.1.1.1

theorem matchesStatsFilter_user {u : Nat} {q : StatsQuery} {e : Expense}
    (h : matchesStatsFilter u q e = true) : e.user = u := by
  unfold matchesStatsFilter at h
  simp only [Bool.and_eq_true, decide_eq_true_eq] at h
  exact h.1.1

/-- A filter whose predicate only selects documents of user `u` reads only
the user's sublist of the database. -/
theorem filter_userDocs (u : Nat) (p : Expense → Bool) (h : ∀ e, p e = true → e.user = u) :
    ∀ db : Db, db.filter p = (userDocs u db).filter p := by
  intro db
  induction db with
  | nil => rfl
  | cons e es ih =>
    unfold userDocs at *
    by_cases hp : p e = true
    · have hu : e.user = u := h e hp
      simp [List.filter_cons, hp, hu, ih]
    · by_cases hu : e.user = u <;>
        simp [List.filter_cons, hp, hu, ih]

/-- A `findOne` whose predicate only selects documents of user `u` reads only
the user's sublist of the database. -/
theorem find?_userDocs (u : Nat) (p : Expense → Bool) (h : ∀ e, p e = true → e.user = u) :
    ∀ db : Db, db.find? p = (userDocs u db).find? p := by
  intro db
  induction db with
  | nil => rfl
  | cons e es ih =>
    unfold userDocs at *
    by_cases hp : p e = true
    · have hu : e.user = u := h e hp
      simp [List.find?_cons, hp, hu, List.filter_cons]
    · by_cases hu : e.user = u <;>
        simp [List.find?_cons, hp, hu, List.filter_cons, ih]

theorem findOneByIdUser_mem {i u : Nat} {db : Db} {e : Expense}
    (h : findOneByIdUser i u db = some e) : e ∈ db ∧ e.id = i ∧ e.user = u := by
  refine ⟨List.mem_of_find?_eq_some h, ?_⟩
  have := List.find?_some h
  simpa using this

/-- In a database with `Nodup` ids, a document is determined by its id. -/
theorem id_unique {db : Db} (h : (db.map Expense.id).Nodup) {d e : Expense}
    (hd : d ∈ db) (he : e ∈ db) (hide : d.id = e.id) : d = e :=
  List.inj_on_of_nodup_map h hd he hide

theorem saveById_length (x : Expense) : ∀ db : Db, (saveById x db).length = db.length := by
  intro db
  induction db with
  | nil => rfl
  | cons e es ih => by_cases he : e.id = x.id <;> simp [saveById, he, ih]

theorem mem_saveById_weak {x d : Expense} :
    ∀ {db : Db}, d ∈ saveById x db → d = x ∨ d ∈ db := by
  intro db
  induction db with
  | nil => intro h; simp [saveById] at h
  | cons e es ih =>
    intro h
    by_cases he : e.id = x.id
    · simp only [saveById, if_pos he, List.mem_cons] at h
      rcases h with h | h
      · exact Or.inl h
      · exact Or.inr (List.mem_cons_of_mem _ h)
    · simp only [saveById, if_neg he, List.mem_cons] at h
      rcases h with h | h
      · exact Or.inr (h ▸ List.mem_cons_self e es)
      · rcases ih h with h | h
        · exact Or.inl h
        · exact Or.inr (List.mem_cons_of_mem _ h)

/-- Documents whose id differs from the written one survive `save` untouched. -/
theorem mem_saveById_of_ne {x d : Expense} :
    ∀ {db : Db}, d ∈ db → d.id ≠ x.id → d ∈ saveById x db := by
  intro db
  induction db with
  | nil => intro h; simp at h
  | cons e es ih =>
    intro hd hne
    by_cases he : e.id = x.id
    · simp only [saveById, if_pos he]
      rcases List.mem_cons.mp hd with h | h
      · exact absurd (h ▸ he) hne
      · exact List.mem_cons_of_mem _ h
    · simp only [saveById, if_neg he]
      rcases List.mem_cons.mp hd with h | h
      · exact List.mem_cons.mpr (Or.inl h)
      · exact List.mem_cons_of_mem _ (ih h hne)

/-- With `Nodup` ids, the only document of id `x.id` after `save x` is `x`
itself (provided some document with that id was present). -/
theorem saveById_id_eq {x d : Expense} :
    ∀ {db : Db}, (db.map Expense.id).Nodup → d ∈ saveById x db → d.id = x.id → d = x := by
  intro db
  induction db with
  | nil => intro _ h; simp [saveById] at h
  | cons e es ih =>
    intro hnd hmem hid
    simp only [List.map_cons, List.nodup_cons] at hnd
    by_cases he : e.id = x.id
    · simp only [saveById, if_pos he, List.mem_cons] at hmem
      rcases hmem with h | h
      · exact h
      · exfalso
        apply hnd.1
        have hm : d.id ∈ es.map Expense.id := List.mem_map_of_mem Expense.id h
        rwa [hid, ← he] at hm
    · simp only [saveById, if_neg he, List.mem_cons] at hmem
      rcases hmem with h | h
      · exact absurd (h ▸ hid) he
      · exact ih hnd.2 h hid

theorem map_pair_saveById (x : Expense) :
    ∀ db : Db, (∀ d ∈ db, d.id = x.id → d.user = x.user) →
      (saveById x db).map (fun e => (e.id, e.user)) = db.map (fun e => (e.id, e.user)) := by
  intro db
  induction db with
  | nil => intro _; rfl
  | cons e es ih =>
    intro h
    by_cases he : e.id = x.id
    · have := h e (List.mem_cons_self e es) he
      simp [saveById, he, this]
    · simp [saveById, he, ih (fun d hd => h d (List.mem_cons_of_mem _ hd))]

/-- `save` of a document of user `u` leaves the view of any user `v ≠ u`
unchanged, as long as no stored document with the written id belongs to `v`. -/
theorem userDocs_saveById (x : Expense) (v : Nat) (hxv : x.user ≠ v) :
    ∀ db : Db, (∀ d ∈ db, d.id = x.id → d.user ≠ v) →
      userDocs v (saveById x db) = userDocs v db := by
  intro db
  induction db with
  | nil => intro _; rfl
  | cons e es ih =>
    intro h
    by_cases he : e.id = x.id
    · have hev : e.user ≠ v := h e (List.mem_cons_self e es) he
      simp [saveById, he, userDocs, List.filter_cons, hxv, hev]
    · unfold userDocs at *
      by_cases hev : e.user = v <;>
        simp [saveById, he, List.filter_cons, hev,
          ih (fun d hd => h d (List.mem_cons_of_mem _ hd))]

theorem deleteById_length {i : Nat} {e : Expense} :
    ∀ {db : Db}, e ∈ db → e.id = i → (deleteById i db).length + 1 = db.length := by
  intro db
  induction db with
  | nil => intro h; simp at h
  | cons d ds ih =>
    intro hmem hid
    by_cases hd : d.id = i
    · simp [deleteById, hd]
    · rcases List.mem_cons.mp hmem with h | h
      · exact absurd (h ▸ hid) hd
      · simp only [deleteById, if_neg hd, List.length_cons]
        rw [ih h hid]

theorem mem_deleteById_of_ne {i : Nat} {d : Expense} :
    ∀ {db : Db}, d ∈ db → d.id ≠ i → d ∈ deleteById i db := by
  intro db
  induction db with
  | nil => intro h; simp at h
  | cons e es ih =>
    intro hmem hne
    by_cases he : e.id = i
    · simp only [deleteById, if_pos he]
      rcases List.mem_cons.mp hmem with h | h
      · exact absurd (h ▸ he) hne
      · exact h
    · simp only [deleteById, if_neg he, List.mem_cons]
      rcases List.mem_cons.mp hmem with h | h
      · exact Or.inl h
      · exact Or.inr (ih h hne)

theorem mem_deleteById {i : Nat} {d : Expense} :
    ∀ {db : Db}, (db.map Expense.id).Nodup →
      (d ∈ deleteById i db ↔ d ∈ db ∧ d.id ≠ i) := by
  intro db
  induction db with
  | nil => intro _; simp [deleteById]
  | cons e es ih =>
    intro hnd
    simp only [List.map_cons, List.nodup_cons] at hnd
    by_cases he : e.id = i
    · simp only [deleteById, if_pos he]
      constructor
      · intro h
        refine ⟨List.mem_cons_of_mem _ h, fun hdi => ?_⟩
        exact hnd.1 (he ▸ hdi ▸ List.mem_map_of_mem Expense.id h)
      · rintro ⟨hmem, hne⟩
        rcases List.mem_cons.mp hmem with h | h
        · exact absurd (h ▸ he) hne
        · exact h
    · simp only [deleteById, if_neg he, List.mem_cons]
      constructor
      · rintro (h | h)
        · exact ⟨Or.inl h, h ▸ he⟩
        · have := (ih hnd.2).mp h
          exact ⟨Or.inr this.1, this.2⟩
      · rintro ⟨h | h, hne⟩
        · exact Or.inl h
        · exact Or.inr ((ih hnd.2).mpr ⟨h, hne⟩)

/-- Deleting a document that belongs to user `u` leaves the view of any other
user unchanged, as long as no stored document with that id belongs to `v`. -/
theorem userDocs_deleteById (i : Nat) (v : Nat) :
    ∀ db : Db, (∀ d ∈ db, d.id = i → d.user ≠ v) →
      userDocs v (deleteById i db) = userDocs v db := by
  intro db
  induction db with
  | nil => intro _; rfl
  | cons e es ih =>
    intro h
    by_cases he : e.id = i
    · have hev : e.user ≠ v := h e (List.mem_cons_self e es) he
      simp [deleteById, he, userDocs, List.filter_cons, hev]
    · unfold userDocs at *
      by_cases hev : e.user = v <;>
        simp [deleteById, he, List.filter_cons, hev,
          ih (fun d hd => h d (List.mem_cons_of_mem _ hd))]

theorem mem_firstKeys {κ : Type} [DecidableEq κ] (key : Expense → κ) :
    ∀ (l : List Expense) (k : κ), k ∈ firstKeys key l ↔ ∃ e ∈ l, key e = k := by
  intro l
  induction l with
  | nil => intro k; simp [firstKeys]
  | cons e es ih =>
    intro k
    simp only [firstKeys, List.mem_cons, List.mem_filter, ih, decide_eq_true_eq]
    constructor
    · rintro (h | ⟨⟨e', he', hk⟩, _⟩)
      · exact ⟨e, Or.inl rfl, h.symm⟩
      · exact ⟨e', Or.inr he', hk⟩
    · rintro ⟨e', he' | he', hk⟩
      · exact Or.inl (he' ▸ hk.symm)
      · by_cases hke : k = key e
        · exact Or.inl hke
        · exact Or.inr ⟨⟨e', he', hk⟩, by simpa using hke⟩

theorem nodup_firstKeys {κ : Type} [DecidableEq κ] (key : Expense → κ) :
    ∀ l : List Expense, (firstKeys key l).Nodup := by
  intro l
  induction l with
  | nil => simp [firstKeys]
  | cons e es ih =>
    simp only [firstKeys, List.nodup_cons]
    refine ⟨fun h => ?_, ih.filter _⟩
    have := (List.mem_filter.mp h).2
    simp at this

theorem sumAmounts_perm {κ : Type} [DecidableEq κ] (key : Expense → κ) (k : κ)
    {l l' : List Expense} (h : l.Perm l') : sumAmounts key k l = sumAmounts key k l' :=
  ((h.filter _).map _).sum_eq

theorem countKey_perm {κ : Type} [DecidableEq κ] (key : Expense → κ) (k : κ)
    {l l' : List Expense} (h : l.Perm l') : countKey key k l = countKey key k l' :=
  (h.filter _).length_eq

/-- `Math.ceil(t / l)` for naturals, characterised by its two bounds:
`(t + l - 1) / l` is the least number of `l`-sized pages covering `t`. -/
theorem ceil_div_bounds (t l : Nat) (hl : 1 ≤ l) :
    t ≤ ((t + l - 1) / l) * l ∧ ((t + l - 1) / l) * l < t + l := by
  have hm := Nat.div_add_mod (t + l - 1) l
  have hlt : (t + l - 1) % l < l := Nat.mod_lt _ (by omega)
  rw [Nat.mul_comm] at hm
  set x := (t + l - 1) / l * l with hx
  set m := (t + l - 1) % l with hmm
  omega

/-- Positive characterisation of the POST validation chain. -/
theorem validateExpense_true_iff (b : ExpenseBody) : validateExpense b = true ↔
    (∃ t, b.title = some t ∧ ¬ jsTrim t = "" ∧ (jsTrim t).length ≤ 100) ∧
    (∃ a, b.amount = some (some a) ∧ (1 : ℚ)/100 ≤ a) ∧
    (∃ c, b.category = some c ∧ c ∈ validCategories) ∧
    (b.date = none ∨ ∃ d, b.date = some (some d)) := by
  obtain ⟨ot, oa, oc, od⟩ := b
  rcases ot with _ | t <;> rcases oa with _ | _ | a <;> rcases oc with _ | c <;>
    rcases od with _ | _ | d <;> simp [validateExpense, minAmount_eq, List.elem_iff, and_assoc]

/-- The specification's rejection condition coincides with the failure of the
source's `validateExpense` chain. -/
theorem c6BadBody_iff (b : ExpenseBody) : c6BadBody b ↔ validateExpense b = false := by
  constructor
  · intro hbad
    cases hv : validateExpense b
    · rfl
    · exfalso
      obtain ⟨⟨t, ht, htne, htle⟩, ⟨a, ha, hale⟩, ⟨c, hc, hcm⟩, hd⟩ :=
        (validateExpense_true_iff b).mp hv
      unfold c6BadBody at hbad
      rw [ht, ha, hc] at hbad
      rcases hbad with (h | h) | h | h | h
      · exact htne h
      · exact absurd htle (not_le.mpr h)
      · exact absurd hale (not_le.mpr h)
      · exact h hcm
      · rcases hd with hd | ⟨d, hd⟩ <;> simp [hd] at h
  · intro hv
    by_contra hbad
    unfold c6BadBody at hbad
    push_neg at hbad
    obtain ⟨h1, h2, h3, h4⟩ := hbad
    have hgood : validateExpense b = true := by
      refine (validateExpense_true_iff b).mpr ⟨?_, ?_, ?_, ?_⟩
      · rcases hot : b.title with _ | t
        · rw [hot] at h1; simp at h1
        · rw [hot] at h1
          rw [not_or, not_lt] at h1
          exact ⟨t, rfl, h1.1, h1.2⟩
      · rcases hoa : b.amount with _ | _ | a
        · rw [hoa] at h2; simp at h2
        · rw [hoa] at h2; simp at h2
        · rw [hoa] at h2
          rw [not_lt] at h2
          exact ⟨a, rfl, h2⟩
      · rcases hoc : b.category with _ | c
        · rw [hoc] at h3; simp at h3
        · rw [hoc] at h3
          rw [not_not] at h3
          exact ⟨c, rfl, h3⟩
      · rcases hod : b.date with _ | _ | d
        · exact Or.inl rfl
        · exact absurd hod h4
        · exact Or.inr ⟨d, rfl⟩
    rw [hgood] at hv
    exact Bool.noConfusion hv

/-! ### Claim theorems -/

/-- C2, counterexample to the claim as stated: a single GET
/api/expenses/stats request executes three aggregation pipelines against the
database, not exactly one query or pipeline. -/
theorem c2_counterexample :
    ((getExpenseStats [] 0 ⟨none, none⟩).2).length = 3 ∧
    ¬ ((getExpenseStats [] 0 ⟨none, none⟩).2).length = 1 := by
  constructor
  · rfl
  · decide

/-- C2 (amended): every request executes a fixed, small number of
document-database queries or aggregation-pipeline runs, determined by the
handler and its path — two for the list endpoint, three aggregations for
stats, one for the summary, at most one for get-by-id and create (zero when
validation fails or the id cast fails before any query), and at most two for
update and delete — sequentially, before the response is produced. -/
theorem c2_per_request_query_counts :
    (∀ (db : Db) (u : Nat) (q : ListQuery), ((getExpenses db u q).2).length = 2) ∧
    (∀ (db : Db) (u : Nat) (ip : Option Nat), ((getExpenseById db u ip).2).length ≤ 1) ∧
    (∀ (db : Db) (u : Nat) (q : StatsQuery), ((getExpenseStats db u q).2).length = 3) ∧
    (∀ (db : Db) (u : Nat), ((getExpenseSummary db u).2).length = 1) ∧
    (∀ (db : Db) (u f : Nat) (now : Date) (b : ExpenseBody),
       ((addExpense db u f now b).2.2).length ≤ 1) ∧
    (∀ (db : Db) (u : Nat) (ip : Option Nat) (b : ExpenseBody),
       ((updateExpense db u ip b).2.2).length ≤ 2) ∧
    (∀ (db : Db) (u : Nat) (ip : Option Nat), ((deleteExpense db u ip).2.2).length ≤ 2) := by
  refine ⟨fun db u q => rfl, ?_, fun db u q => rfl, fun db u => rfl, ?_, ?_, ?_⟩
  · intro db u ip
    rcases ip with _ | i
    · simp [getExpenseById]
    · rcases h : findOneByIdUser i u db with _ | e <;> simp [getExpenseById, h]
  · intro db u f now b
    by_cases h : validateExpense b = true <;> simp [addExpense, h]
  · intro db u ip b
    by_cases h : validateExpenseUpdate b = true
    · rcases ip with _ | i
      · simp [updateExpense, h]
      · rcases hf : findOneByIdUser i u db with _ | e <;> simp [updateExpense, h, hf]
    · simp [updateExpense, h]
  · intro db u ip
    rcases ip with _ | i
    · simp [deleteExpense]
    · rcases h : findOneByIdUser i u db with _ | e <;> simp [deleteExpense, h]

/-- C6: POST /api/expenses responds 400 "Validation failed" and creates no
document exactly when the body's title is empty after trimming or exceeds 100
characters, or amount is non-numeric or below 0.01, or category is not one of
the nine allowed values, or a provided date is not valid ISO 8601; otherwise
it appends exactly one expense owned by the authenticated user, with the
request's fields (title trimmed, date defaulting to the current time when
absent), and responds 201. -/
theorem c6_addExpense_validation (db : Db) (u fid : Nat) (now : Date) (b : ExpenseBody) :
    (c6BadBody b →
      (addExpense db u fid now b).1 = ⟨400, "Validation failed", none⟩ ∧
      (addExpense db u fid now b).2.1 = db) ∧
    (¬ c6BadBody b →
      ∃ e : Expense,
        (addExpense db u fid now b).1 = ⟨201, "Expense added successfully", some e⟩ ∧
        (addExpense db u fid now b).2.1 = db ++ [e] ∧
        e.id = fid ∧ e.user = u ∧
        (∀ t, b.title = some t → e.title = jsTrim t) ∧
        (∀ a, b.amount = some (some a) → e.amount = a) ∧
        (∀ c, b.category = some c → e.category = c) ∧
        (b.date = none → e.date = now) ∧
        (∀ d, b.date = some (some d) → e.date = d)) := by
  constructor
  · intro hbad
    have hv : validateExpense b = false := (c6BadBody_iff b).mp hbad
    constructor <;> simp [addExpense, hv]
  · intro hok
    have hv : validateExpense b = true := by
      cases hv : validateExpense b
      · exact absurd ((c6BadBody_iff b).mpr hv) hok
      · rfl
    refine ⟨{ id := fid
              title := jsTrim (b.title.getD "")
              amount := (b.amount.getD none).getD 0
              category := b.category.getD ""
              date := match b.date with
                      | some (some d) => d
                      | _ => now
              user := u }, ?_, ?_, rfl, rfl, ?_, ?_, ?_, ?_, ?_⟩
    · simp [addExpense, hv]
    · simp [addExpense, hv]
    · intro t ht; simp [ht]
    · intro a ha; simp [ha]
    · intro c hc; simp [hc]
    · intro hd; simp [hd]
    · intro d hd; simp [hd]

/-- C6, witness: a concrete valid body passes and yields a 201 response. -/
theorem c6_addExpense_validation_witness :
    ¬ c6BadBody ⟨some " Lunch ", some (some 5), some "Food", none⟩ ∧
    (addExpense [] 0 1 ⟨2024, 1, 0⟩
      ⟨some " Lunch ", some (some 5), some "Food", none⟩).1.status = 201 := by
  have hv : validateExpense ⟨some " Lunch ", some (some 5), some "Food", none⟩ = true := by
    decide
  have hnb : ¬ c6BadBody ⟨some " Lunch ", some (some 5), some "Food", none⟩ := fun hb => by
    rw [(c6BadBody_iff _).mp hb] at hv
    exact Bool.noConfusion hv
  refine ⟨hnb, ?_⟩
  obtain ⟨e, h1, -, -, -, -, -, -, -, -⟩ :=
    (c6_addExpense_validation [] 0 1 ⟨2024, 1, 0⟩ _).2 hnb
  rw [h1]

/-- C7, counterexample to the claim as stated: on PUT, body validation runs
before the id is used, so a malformed `:id` together with an invalid body
(here a title that is empty after trimming) yields 400 "Validation failed"
rather than 400 "Invalid expense ID format". -/
theorem c7_counterexample :
    (updateExpense [] 0 none ⟨some "", none, none, none⟩).1 =
      ⟨400, "Validation failed", none⟩ ∧
    (updateExpense [] 0 none ⟨some "", none, none, none⟩).1 ≠
      ⟨400, "Invalid expense ID format", none⟩ := by
  constructor
  · decide
  · decide

/-- C7 (amended): for GET, PUT and DELETE on /api/expenses/:id, when `:id` is
well-formed but no expense with that id belongs to the authenticated user the
response is 404 "Expense not found", and when `:id` is malformed (a cast
error) the response is 400 "Invalid expense ID format" — for PUT both
statements hold provided the body passes `validateExpenseUpdate`; a failing
body yields 400 "Validation failed" first. -/
theorem c7_id_error_responses (db : Db) (u i : Nat) (b : ExpenseBody) :
    ((∀ e ∈ db, ¬(e.id = i ∧ e.user = u)) →
      (getExpenseById db u (some i)).1 = ⟨404, "Expense not found", none⟩ ∧
      (deleteExpense db u (some i)).1 = ⟨404, "Expense not found", none⟩ ∧
      (validateExpenseUpdate b = true →
        (updateExpense db u (some i) b).1 = ⟨404, "Expense not found", none⟩)) ∧
    ((getExpenseById db u none).1 = ⟨400, "Invalid expense ID format", none⟩ ∧
     (deleteExpense db u none).1 = ⟨400, "Invalid expense ID format", none⟩ ∧
     (validateExpenseUpdate b = true →
       (updateExpense db u none b).1 = ⟨400, "Invalid expense ID format", none⟩)) := by
  constructor
  · intro hnone
    have hf : findOneByIdUser i u db = none := by
      apply List.find?_eq_none.mpr
      intro e he
      simpa using hnone e he
    refine ⟨?_, ?_, fun hv => ?_⟩
    · simp [getExpenseById, hf]
    · simp [deleteExpense, hf]
    · simp [updateExpense, hv, hf]
  · refine ⟨rfl, rfl, fun hv => ?_⟩
    simp [updateExpense, hv]

/-- C7, witness: a user with no documents gets 404 on a well-formed unknown
id, and 400 on a malformed id for a body that passes validation. -/
theorem c7_id_error_responses_witness :
    (getExpenseById [] 0 (some 5)).1 = ⟨404, "Expense not found", none⟩ ∧
    (updateExpense [] 0 none ⟨none, none, none, none⟩).1 =
      ⟨400, "Invalid expense ID format", none⟩ :=
  ⟨((c7_id_error_responses [] 0 5 ⟨none, none, none, none⟩).1 (by simp)).1,
   (c7_id_error_responses [] 0 5 ⟨none, none, none, none⟩).2.2.2 (by decide)⟩

/-- C10: with unique ids, DELETE /api/expenses/:id removes exactly the one
document with id `:id` when it belongs to the authenticated user, and the
response carries that document's former field values; when no owned match
exists, the 404 response is produced with the database unchanged. -/
theorem c10_deleteExpense (db : Db) (u i : Nat)
    (hnd : (db.map Expense.id).Nodup) :
    (∀ e, findOneByIdUser i u db = some e →
      (deleteExpense db u (some i)).1 =
        ⟨200, "Expense deleted successfully", some e.view⟩ ∧
      e.user = u ∧
      (deleteExpense db u (some i)).2.1.length + 1 = db.length ∧
      (∀ d, d ∈ (deleteExpense db u (some i)).2.1 ↔ d ∈ db ∧ d.id ≠ i)) ∧
    (findOneByIdUser i u db = none →
      (deleteExpense db u (some i)).1 = ⟨404, "Expense not found", none⟩ ∧
      (deleteExpense db u (some i)).2.1 = db) := by
  constructor
  · intro e hf
    obtain ⟨hmem, hid, huser⟩ := findOneByIdUser_mem hf
    refine ⟨by simp [deleteExpense, hf], huser, ?_, ?_⟩
    · have hlen := deleteById_length hmem hid
      simpa [deleteExpense, hf] using hlen
    · intro d
      have := mem_deleteById (i := i) (d := d) hnd
      simpa [deleteExpense, hf] using this
  · intro hf
    constructor <;> simp [deleteExpense, hf]

/-- C10, witness: deleting an owned document removes it and returns its former
values; an unknown id leaves the store untouched. -/
theorem c10_deleteExpense_witness :
    (deleteExpense [⟨1, "a", 5, "Food", ⟨2024, 1, 0⟩, 0⟩] 0 (some 1)).1 =
      ⟨200, "Expense deleted successfully",
       some ⟨1, "a", 5, "Food", ⟨2024, 1, 0⟩⟩⟩ ∧
    (deleteExpense [⟨1, "a", 5, "Food", ⟨2024, 1, 0⟩, 0⟩] 0 (some 2)).2.1 =
      [⟨1, "a", 5, "Food", ⟨2024, 1, 0⟩, 0⟩] :=
  ⟨((c10_deleteExpense [⟨1, "a", 5, "Food", ⟨2024, 1, 0⟩, 0⟩] 0 1 (by decide)).1
      ⟨1, "a", 5, "Food", ⟨2024, 1, 0⟩, 0⟩ (by decide)).1,
   ((c10_deleteExpense [⟨1, "a", 5, "Food", ⟨2024, 1, 0⟩, 0⟩] 0 2 (by decide)).2
      (by decide)).2⟩

/-- C9: frame property of a successful PUT /api/expenses/:id (unique ids).
The stored document with the updated id keeps its `_id` and `user`; every
field absent from the body — or falsy in it: empty-trimming title, amount 0,
empty category — keeps its previous value; every other document is untouched
and none is created or destroyed. -/
theorem c9_updateExpense_frame (db : Db) (u i : Nat) (b : ExpenseBody) (e : Expense)
    (hnd : (db.map Expense.id).Nodup)
    (hv : validateExpenseUpdate b = true)
    (hf : findOneByIdUser i u db = some e) :
    (updateExpense db u (some i) b).1.status = 200 ∧
    (updateExpense db u (some i) b).2.1.length = db.length ∧
    (∀ d', d' ∈ (updateExpense db u (some i) b).2.1 → d'.id = i →
       d'.user = e.user ∧ d'.id = e.id ∧
       (b.title = none → d'.title = e.title) ∧
       (∀ t, b.title = some t → jsTrim t = "" → d'.title = e.title) ∧
       (b.amount = none → d'.amount = e.amount) ∧
       (b.amount = some (some 0) → d'.amount = e.amount) ∧
       (b.category = none → d'.category = e.category) ∧
       (b.category = some "" → d'.category = e.category) ∧
       (b.date = none → d'.date = e.date)) ∧
    (∀ d, d ∈ db → d.id ≠ i → d ∈ (updateExpense db u (some i) b).2.1) ∧
    (∀ d', d' ∈ (updateExpense db u (some i) b).2.1 → d'.id ≠ i → d' ∈ db) := by
  obtain ⟨hmem, hid, huser⟩ := findOneByIdUser_mem hf
  have hids : (applyUpdate b e).id = e.id := rfl
  have hdb : (updateExpense db u (some i) b).2.1 = saveById (applyUpdate b e) db := by
    simp [updateExpense, hv, hf]
  refine ⟨by simp [updateExpense, hv, hf], ?_, ?_, ?_, ?_⟩
  · rw [hdb]; exact saveById_length _ db
  · intro d' hd' hd'i
    rw [hdb] at hd'
    have hd'eq : d' = applyUpdate b e := by
      apply saveById_id_eq hnd hd'
      rw [hids, hid]; exact hd'i
    subst hd'eq
    refine ⟨rfl, rfl, ?_, ?_, ?_, ?_, ?_, ?_, ?_⟩
    · intro h; simp [applyUpdate, h]
    · intro t ht htr; simp [applyUpdate, ht, htr]
    · intro h; simp [applyUpdate, h]
    · intro h; simp [applyUpdate, h]
    · intro h; simp [applyUpdate, h]
    · intro h; simp [applyUpdate, h]
    · intro h; simp [applyUpdate, h]
  · intro d hd hdi
    rw [hdb]
    exact mem_saveById_of_ne hd (by rw [hids, hid]; exact hdi)
  · intro d' hd' hd'i
    rw [hdb] at hd'
    rcases mem_saveById_weak hd' with h | h
    · exfalso; apply hd'i; rw [h, hids, hid]
    · exact h

/-- C9, witness: updating only the amount of one of two stored documents
succeeds and the untouched document survives. -/
theorem c9_updateExpense_frame_witness :
    (updateExpense
       [⟨1, "a", 5, "Food", ⟨2024, 1, 0⟩, 0⟩, ⟨2, "b", 3, "Bills", ⟨2024, 2, 0⟩, 0⟩]
       0 (some 1) ⟨none, some (some 7), none, none⟩).1.status = 200 ∧
    ⟨2, "b", 3, "Bills", ⟨2024, 2, 0⟩, 0⟩ ∈
      (updateExpense
       [⟨1, "a", 5, "Food", ⟨2024, 1, 0⟩, 0⟩, ⟨2, "b", 3, "Bills", ⟨2024, 2, 0⟩, 0⟩]
       0 (some 1) ⟨none, some (some 7), none, none⟩).2.1 :=
  ⟨(c9_updateExpense_frame
      [⟨1, "a", 5, "Food", ⟨2024, 1, 0⟩, 0⟩, ⟨2, "b", 3, "Bills", ⟨2024, 2, 0⟩, 0⟩]
      0 1 ⟨none, some (some 7), none, none⟩ ⟨1, "a", 5, "Food", ⟨2024, 1, 0⟩, 0⟩
      (by decide) (by decide) (by decide)).1,
   (c9_updateExpense_frame
      [⟨1, "a", 5, "Food", ⟨2024, 1, 0⟩, 0⟩, ⟨2, "b", 3, "Bills", ⟨2024, 2, 0⟩, 0⟩]
      0 1 ⟨none, some (some 7), none, none⟩ ⟨1, "a", 5, "Food", ⟨2024, 1, 0⟩, 0⟩
      (by decide) (by decide) (by decide)).2.2.2.1
     ⟨2, "b", 3, "Bills", ⟨2024, 2, 0⟩, 0⟩ (by decide) (by decide)⟩

/-- C3: GET /api/expenses returns exactly the window of the authenticated
user's documents that match the optional category and inclusive date-range
filters, sorted by date descending, after skipping `(page-1)*limit` and
truncating to `limit` (defaults 1 and 10), with `totalExpenses` the full
match count, `totalPages` its `limit`-ceiling (characterised by its two
bounds), `hasNextPage = page < totalPages` and `hasPrevPage = page > 1`. -/
theorem c3_getExpenses (db : Db) (u : Nat) (q : ListQuery)
    (hl : 1 ≤ q.limit.getD 10) :
    (getExpenses db u q).1.status = 200 ∧
    (∃ sorted : List Expense,
       sorted.Perm (db.filter (matchesListFilter u q)) ∧
       List.Sorted dateDesc sorted ∧
       (getExpenses db u q).1.data =
         (sorted.drop ((q.page.getD 1 - 1) * q.limit.getD 10)).take (q.limit.getD 10)) ∧
    List.Sorted dateDesc (getExpenses db u q).1.data ∧
    (getExpenses db u q).1.data.length ≤ q.limit.getD 10 ∧
    (∀ e ∈ (getExpenses db u q).1.data, e ∈ db ∧ matchesListFilter u q e = true) ∧
    (getExpenses db u q).1.pagination.currentPage = q.page.getD 1 ∧
    (getExpenses db u q).1.pagination.totalExpenses =
      (db.filter (matchesListFilter u q)).length ∧
    ((db.filter (matchesListFilter u q)).length ≤
       (getExpenses db u q).1.pagination.totalPages * q.limit.getD 10 ∧
     (getExpenses db u q).1.pagination.totalPages * q.limit.getD 10 <
       (db.filter (matchesListFilter u q)).length + q.limit.getD 10) ∧
    (getExpenses db u q).1.pagination.hasNextPage =
      decide (q.page.getD 1 < (getExpenses db u q).1.pagination.totalPages) ∧
    (getExpenses db u q).1.pagination.hasPrevPage = decide (1 < q.page.getD 1) := by
  have hsorted : List.Sorted dateDesc
      (List.insertionSort dateDesc (db.filter (matchesListFilter u q))) :=
    List.sorted_insertionSort dateDesc _
  have hperm : (List.insertionSort dateDesc (db.filter (matchesListFilter u q))).Perm
      (db.filter (matchesListFilter u q)) :=
    List.perm_insertionSort dateDesc _
  have hdata : (getExpenses db u q).1.data =
      ((List.insertionSort dateDesc (db.filter (matchesListFilter u q))).drop
        ((q.page.getD 1 - 1) * q.limit.getD 10)).take (q.limit.getD 10) := rfl
  refine ⟨rfl, ⟨_, hperm, hsorted, hdata⟩, ?_, ?_, ?_, rfl, rfl, ?_, rfl, rfl⟩
  · rw [hdata]
    exact hsorted.sublist
      ((List.take_sublist _ _).trans (List.drop_sublist _ _))
  · rw [hdata]
    exact List.length_take_le _ _
  · intro e he
    rw [hdata] at he
    have hmem : e ∈ db.filter (matchesListFilter u q) :=
      hperm.mem_iff.mp
        (((List.take_sublist _ _).trans (List.drop_sublist _ _)).mem he)
    have := List.mem_filter.mp hmem
    exact ⟨this.1, this.2⟩
  · exact ceil_div_bounds _ _ hl

/-- C3, witness: with two matching documents and the default query the single
page is the whole list sorted by date descending and the flags are off. -/
theorem c3_getExpenses_witness :
    1 ≤ (⟨none, none, none, none, none⟩ : ListQuery).limit.getD 10 ∧
    (getExpenses
      [⟨1, "a", 5, "Food", ⟨2024, 1, 0⟩, 7⟩, ⟨2, "b", 3, "Food", ⟨2024, 2, 0⟩, 7⟩]
      7 ⟨none, none, none, none, none⟩).1.pagination.totalExpenses =
      (([⟨1, "a", 5, "Food", ⟨2024, 1, 0⟩, 7⟩,
         ⟨2, "b", 3, "Food", ⟨2024, 2, 0⟩, 7⟩] : Db).filter
        (matchesListFilter 7 ⟨none, none, none, none, none⟩)).length :=
  ⟨by decide,
   (c3_getExpenses
      [⟨1, "a", 5, "Food", ⟨2024, 1, 0⟩, 7⟩, ⟨2, "b", 3, "Food", ⟨2024, 2, 0⟩, 7⟩]
      7 ⟨none, none, none, none, none⟩ (by decide)).2.2.2.2.2.2.1⟩

theorem categoryGroups_map (l : List Expense) :
    (categoryGroups l).map CategoryStat.category = firstKeys Expense.category l := by
  simp only [categoryGroups, List.map_map]
  rw [show (CategoryStat.category ∘ fun c =>
        (⟨c, sumAmounts Expense.category c l, countKey Expense.category c l⟩ :
          CategoryStat)) = id from rfl, List.map_id]

theorem monthlyGroups_map (l : List Expense) :
    (monthlyGroups l).map (fun s => (s.year, s.month)) =
      firstKeys (fun e => (e.date.year, e.date.month)) l := by
  simp only [monthlyGroups, List.map_map]
  rw [show ((fun s : MonthStat => (s.year, s.month)) ∘ fun ym : Int × Nat =>
        (⟨ym.1, ym.2, sumAmounts (fun e => (e.date.year, e.date.month)) ym l,
          countKey (fun e => (e.date.year, e.date.month)) ym l⟩ : MonthStat)) = id from rfl,
      List.map_id]

/-- C5: GET /api/expenses/stats returns total statistics (sum, count, mean,
defaulting to zeros when nothing matches the user-and-date filter), per-category
groups with correct sums and counts sorted by totalAmount descending, and
per-(year, month) groups sorted by year then month descending, truncated to at
most 6 entries. -/
theorem c5_getExpenseStats (db : Db) (u : Nat) (q : StatsQuery) :
    (getExpenseStats db u q).1.status = 200 ∧
    ((db.filter (matchesStatsFilter u q)).length = 0 →
       (getExpenseStats db u q).1.data.total = ⟨0, 0, 0⟩) ∧
    ((db.filter (matchesStatsFilter u q)).length ≠ 0 →
       (getExpenseStats db u q).1.data.total.totalAmount =
         ((db.filter (matchesStatsFilter u q)).map Expense.amount).sum ∧
       (getExpenseStats db u q).1.data.total.totalExpenses =
         (db.filter (matchesStatsFilter u q)).length ∧
       (getExpenseStats db u q).1.data.total.avgAmount =
         ((db.filter (matchesStatsFilter u q)).map Expense.amount).sum /
           (db.filter (matchesStatsFilter u q)).length) ∧
    List.Sorted catAmountDesc (getExpenseStats db u q).1.data.byCategory ∧
    ((getExpenseStats db u q).1.data.byCategory.map CategoryStat.category).Nodup ∧
    (∀ c : String,
       c ∈ (getExpenseStats db u q).1.data.byCategory.map CategoryStat.category ↔
       ∃ e ∈ db.filter (matchesStatsFilter u q), e.category = c) ∧
    (∀ s ∈ (getExpenseStats db u q).1.data.byCategory,
       s.totalAmount =
         sumAmounts Expense.category s.category (db.filter (matchesStatsFilter u q)) ∧
       s.count =
         countKey Expense.category s.category (db.filter (matchesStatsFilter u q))) ∧
    (getExpenseStats db u q).1.data.monthly.length ≤ 6 ∧
    List.Sorted monthDesc (getExpenseStats db u q).1.data.monthly ∧
    (∃ full : List MonthStat,
       full.Perm (monthlyGroups (db.filter (matchesStatsFilter u q))) ∧
       List.Sorted monthDesc full ∧
       (getExpenseStats db u q).1.data.monthly = full.take 6) ∧
    (∀ s ∈ (getExpenseStats db u q).1.data.monthly,
       s.totalAmount =
         sumAmounts (fun e => (e.date.year, e.date.month)) (s.year, s.month)
           (db.filter (matchesStatsFilter u q)) ∧
       s.count =
         countKey (fun e => (e.date.year, e.date.month)) (s.year, s.month)
           (db.filter (matchesStatsFilter u q))) := by
  have hby : (getExpenseStats db u q).1.data.byCategory =
      List.insertionSort catAmountDesc
        (categoryGroups (db.filter (matchesStatsFilter u q))) := rfl
  have hmon : (getExpenseStats db u q).1.data.monthly =
      (List.insertionSort monthDesc
        (monthlyGroups (db.filter (matchesStatsFilter u q)))).take 6 := by
    simp [getExpenseStats]
  have hbperm := List.perm_insertionSort catAmountDesc
    (categoryGroups (db.filter (matchesStatsFilter u q)))
  have hmperm := List.perm_insertionSort monthDesc
    (monthlyGroups (db.filter (matchesStatsFilter u q)))
  refine ⟨rfl, ?_, ?_, ?_, ?_, ?_, ?_, ?_, ?_, ?_, ?_⟩
  · intro h; simp [getExpenseStats, h]
  · intro h
    refine ⟨?_, ?_, ?_⟩ <;> simp [getExpenseStats, h]
  · rw [hby]; exact List.sorted_insertionSort catAmountDesc _
  · rw [hby]
    exact ((hbperm.map _).nodup_iff).mpr
      (by rw [categoryGroups_map]; exact nodup_firstKeys _ _)
  · intro c
    rw [hby]
    rw [(hbperm.map CategoryStat.category).mem_iff, categoryGroups_map]
    exact mem_firstKeys _ _ c
  · intro s hs
    rw [hby] at hs
    have hmem : s ∈ categoryGroups (db.filter (matchesStatsFilter u q)) :=
      hbperm.mem_iff.mp hs
    obtain ⟨c, -, hc⟩ := List.mem_map.mp hmem
    rw [← hc]
    exact ⟨rfl, rfl⟩
  · rw [hmon]; exact List.length_take_le _ _
  · rw [hmon]
    exact (List.sorted_insertionSort monthDesc _).sublist (List.take_sublist _ _)
  · exact ⟨_, hmperm, List.sorted_insertionSort monthDesc _, hmon⟩
  · intro s hs
    rw [hmon] at hs
    have hmem : s ∈ monthlyGroups (db.filter (matchesStatsFilter u q)) :=
      hmperm.mem_iff.mp ((List.take_sublist _ _).mem hs)
    obtain ⟨ym, -, hym⟩ := List.mem_map.mp hmem
    rw [← hym]
    exact ⟨rfl, rfl⟩

theorem summaryEntries_map (l : List Expense) (T : ℚ) :
    ((firstKeys Expense.category l).map (fun c =>
      (⟨c, round2 (sumAmounts Expense.category c l),
        round2 (sumAmounts Expense.category c l / T * 100)⟩ : BreakdownEntry))).map
      BreakdownEntry.category = firstKeys Expense.category l := by
  simp only [List.map_map]
  rw [show (BreakdownEntry.category ∘ fun c =>
        (⟨c, round2 (sumAmounts Expense.category c l),
          round2 (sumAmounts Expense.category c l / T * 100)⟩ : BreakdownEntry)) = id from rfl,
      List.map_id]

/-- C4: GET /api/expenses/summary returns the user's document count, the
two-decimal rounding of the total amount, a category breakdown with one entry
per distinct category whose totalAmount is the rounded category sum and whose
percentage is the rounded (category sum / total * 100), sorted by totalAmount
descending, together with the full expense list sorted by date descending. -/
theorem c4_getExpenseSummary (db : Db) (u : Nat) :
    (getExpenseSummary db u).1.status = 200 ∧
    (getExpenseSummary db u).1.data.totalExpenses = (userDocs u db).length ∧
    (getExpenseSummary db u).1.data.totalAmount =
      round2 (((userDocs u db).map Expense.amount).sum) ∧
    (∃ sorted : List Expense, sorted.Perm (userDocs u db) ∧
       List.Sorted dateDesc sorted ∧
       (getExpenseSummary db u).1.data.expenses = sorted.map Expense.view) ∧
    List.Sorted breakdownDesc (getExpenseSummary db u).1.data.categoryBreakdown ∧
    ((getExpenseSummary db u).1.data.categoryBreakdown.map
      BreakdownEntry.category).Nodup ∧
    (∀ c : String,
       c ∈ (getExpenseSummary db u).1.data.categoryBreakdown.map
             BreakdownEntry.category ↔
       ∃ e ∈ userDocs u db, e.category = c) ∧
    (∀ en ∈ (getExpenseSummary db u).1.data.categoryBreakdown,
       en.totalAmount =
         round2 (sumAmounts Expense.category en.category (userDocs u db)) ∧
       en.percentage =
         round2 (sumAmounts Expense.category en.category (userDocs u db) /
           (((userDocs u db).map Expense.amount).sum) * 100)) := by
  have hperm : (List.insertionSort dateDesc (userDocs u db)).Perm (userDocs u db) :=
    List.perm_insertionSort dateDesc _
  have hsum : ((List.insertionSort dateDesc (userDocs u db)).map Expense.amount).sum =
      ((userDocs u db).map Expense.amount).sum := (hperm.map _).sum_eq
  have hbd : (getExpenseSummary db u).1.data.categoryBreakdown =
      List.insertionSort breakdownDesc
        ((firstKeys Expense.category (List.insertionSort dateDesc (userDocs u db))).map
          (fun c =>
            (⟨c, round2 (sumAmounts Expense.category c
                  (List.insertionSort dateDesc (userDocs u db))),
              round2 (sumAmounts Expense.category c
                  (List.insertionSort dateDesc (userDocs u db)) /
                ((List.insertionSort dateDesc (userDocs u db)).map Expense.amount).sum *
                100)⟩ : BreakdownEntry))) := rfl
  have hbperm := List.perm_insertionSort breakdownDesc
    ((firstKeys Expense.category (List.insertionSort dateDesc (userDocs u db))).map
      (fun c =>
        (⟨c, round2 (sumAmounts Expense.category c
              (List.insertionSort dateDesc (userDocs u db))),
          round2 (sumAmounts Expense.category c
              (List.insertionSort dateDesc (userDocs u db)) /
            ((List.insertionSort dateDesc (userDocs u db)).map Expense.amount).sum *
            100)⟩ : BreakdownEntry)))
  refine ⟨rfl, hperm.length_eq, ?_, ⟨_, hperm, List.sorted_insertionSort dateDesc _, rfl⟩,
    ?_, ?_, ?_, ?_⟩
  · show round2 (((List.insertionSort dateDesc (userDocs u db)).map Expense.amount).sum) = _
    rw [hsum]
  · rw [hbd]; exact List.sorted_insertionSort breakdownDesc _
  · rw [hbd]
    refine ((hbperm.map _).nodup_iff).mpr ?_
    rw [summaryEntries_map]
    exact nodup_firstKeys _ _
  · intro c
    rw [hbd, (hbperm.map BreakdownEntry.category).mem_iff, summaryEntries_map,
      mem_firstKeys]
    constructor
    · rintro ⟨e, he, hc⟩
      exact ⟨e, hperm.mem_iff.mp he, hc⟩
    · rintro ⟨e, he, hc⟩
      exact ⟨e, hperm.mem_iff.mpr he, hc⟩
  · intro en hen
    rw [hbd] at hen
    have hmem := hbperm.mem_iff.mp hen
    obtain ⟨c, -, hc⟩ := List.mem_map.mp hmem
    rw [← hc]
    refine ⟨?_, ?_⟩
    · show round2 (sumAmounts Expense.category c
        (List.insertionSort dateDesc (userDocs u db))) = _
      rw [sumAmounts_perm Expense.category c hperm]
    · show round2 (sumAmounts Expense.category c
          (List.insertionSort dateDesc (userDocs u db)) /
        ((List.insertionSort dateDesc (userDocs u db)).map Expense.amount).sum * 100) = _
      rw [sumAmounts_perm Expense.category c hperm, hsum]

/-- Positive characterisation of the PUT validation chain. -/
theorem validateExpenseUpdate_true_iff (b : ExpenseBody) :
    validateExpenseUpdate b = true ↔
    (b.title = none ∨
      ∃ t, b.title = some t ∧ ¬ jsTrim t = "" ∧ (jsTrim t).length ≤ 100) ∧
    (b.amount = none ∨ ∃ a, b.amount = some (some a) ∧ (1 : ℚ)/100 ≤ a) ∧
    (b.category = none ∨ ∃ c, b.category = some c ∧ c ∈ validCategories) ∧
    (b.date = none ∨ ∃ d, b.date = some (some d)) := by
  obtain ⟨ot, oa, oc, od⟩ := b
  rcases ot with _ | t <;> rcases oa with _ | _ | a <;> rcases oc with _ | c <;>
    rcases od with _ | _ | d <;>
      simp [validateExpenseUpdate, minAmount_eq, List.elem_iff, and_assoc]

theorem validDoc_addExpense {db : Db} {u f : Nat} {now : Date} {b : ExpenseBody}
    (hdb : ∀ e ∈ db, ValidDoc e) :
    ∀ e ∈ (addExpense db u f now b).2.1, ValidDoc e := by
  intro e he
  by_cases hv : validateExpense b = true
  · simp only [addExpense, if_pos hv, List.mem_append, List.mem_singleton] at he
    rcases he with he | he
    · exact hdb e he
    · obtain ⟨⟨t, ht, htne, htle⟩, ⟨a, ha, hale⟩, ⟨c, hc, hcm⟩, -⟩ :=
        (validateExpense_true_iff b).mp hv
      subst he
      refine ⟨⟨b.title.getD "", rfl⟩, ?_, ?_, ?_, ?_⟩ <;>
        simp only [ht, ha, hc, Option.getD_some]
      · exact htne
      · exact htle
      · exact hale
      · exact hcm
  · simp only [addExpense, if_neg hv] at he
    exact hdb e he

theorem validDoc_applyUpdate {b : ExpenseBody} {e : Expense}
    (hv : validateExpenseUpdate b = true) (he : ValidDoc e) :
    ValidDoc (applyUpdate b e) := by
  obtain ⟨h1, h2, h3, h4⟩ := (validateExpenseUpdate_true_iff b).mp hv
  obtain ⟨⟨raw, hraw⟩, hne, hlen, hamt, hcat⟩ := he
  refine ⟨?_, ?_, ?_, ?_, ?_⟩
  · rcases h1 with h | ⟨t, ht, htne, -⟩
    · exact ⟨raw, by simp [applyUpdate, h, hraw]⟩
    · by_cases htr : jsTrim t = ""
      · exact ⟨raw, by simp [applyUpdate, ht, htr, hraw]⟩
      · exact ⟨t, by simp [applyUpdate, ht, htr]⟩
  · rcases h1 with h | ⟨t, ht, htne, -⟩
    · simpa [applyUpdate, h] using hne
    · by_cases htr : jsTrim t = ""
      · simpa [applyUpdate, ht, htr] using hne
      · simp [applyUpdate, ht, htr]
  · rcases h1 with h | ⟨t, ht, -, htle⟩
    · simpa [applyUpdate, h] using hlen
    · by_cases htr : jsTrim t = ""
      · simpa [applyUpdate, ht, htr] using hlen
      · simpa [applyUpdate, ht, htr] using htle
  · rcases h2 with h | ⟨a, ha, hale⟩
    · simpa [applyUpdate, h] using hamt
    · by_cases haz : a = 0
      · simpa [applyUpdate, ha, haz] using hamt
      · simpa [applyUpdate, ha, haz] using hale
  · rcases h3 with h | ⟨c, hc, hcm⟩
    · simpa [applyUpdate, h] using hcat
    · have hcne : ¬ c = "" := by
        rintro rfl
        simp [validCategories] at hcm
      simpa [applyUpdate, hc, hcne] using hcm

theorem validDoc_updateExpense {db : Db} {u : Nat} {ip : Option Nat} {b : ExpenseBody}
    (hdb : ∀ e ∈ db, ValidDoc e) :
    ∀ e ∈ (updateExpense db u ip b).2.1, ValidDoc e := by
  intro e he
  by_cases hv : validateExpenseUpdate b = true
  · rcases ip with _ | i
    · simp only [updateExpense, if_pos hv] at he
      exact hdb e he
    · rcases hf : findOneByIdUser i u db with _ | e0
      · simp only [updateExpense, if_pos hv, hf] at he
        exact hdb e he
      · simp only [updateExpense, if_pos hv, hf] at he
        rcases mem_saveById_weak he with h | h
        · subst h
          exact validDoc_applyUpdate hv (hdb e0 (findOneByIdUser_mem hf).1)
        · exact hdb e h
  · simp only [updateExpense, if_neg hv] at he
    exact hdb e he

/-- C8: starting from any store of schema-valid documents, any sequence of
POST (add) and PUT (update) requests keeps every stored document valid —
trimmed nonempty title of at most 100 characters, amount at least 0.01, one
of the nine categories — while creation stamps the authenticated user as
owner and update never changes any document's `_id` or `user`. -/
theorem c8_store_invariant :
    (∀ (db : Db) (ops : List MutOp), (∀ e ∈ db, ValidDoc e) →
       ∀ e ∈ ops.foldl applyMutOp db, ValidDoc e) ∧
    (∀ (db : Db) (u f : Nat) (now : Date) (b : ExpenseBody) (e : Expense),
       e ∈ (addExpense db u f now b).2.1 → e ∈ db ∨ (e.user = u ∧ e.id = f)) ∧
    (∀ (db : Db) (u : Nat) (ip : Option Nat) (b : ExpenseBody),
       (db.map Expense.id).Nodup →
       ((updateExpense db u ip b).2.1.map (fun e => (e.id, e.user))) =
         db.map (fun e => (e.id, e.user))) := by
  refine ⟨?_, ?_, ?_⟩
  · intro db ops
    induction ops generalizing db with
    | nil => intro hdb; exact hdb
    | cons op ops ih =>
      intro hdb
      rw [List.foldl_cons]
      apply ih
      rcases op with ⟨u, f, now, b⟩ | ⟨u, ip, b⟩
      · exact validDoc_addExpense hdb
      · exact validDoc_updateExpense hdb
  · intro db u f now b e he
    by_cases hv : validateExpense b = true
    · simp only [addExpense, if_pos hv, List.mem_append, List.mem_singleton] at he
      rcases he with he | he
      · exact Or.inl he
      · subst he
        exact Or.inr ⟨rfl, rfl⟩
    · simp only [addExpense, if_neg hv] at he
      exact Or.inl he
  · intro db u ip b hnd
    by_cases hv : validateExpenseUpdate b = true
    · rcases ip with _ | i
      · simp [updateExpense, hv]
      · rcases hf : findOneByIdUser i u db with _ | e0
        · simp [updateExpense, hv, hf]
        · obtain ⟨hmem, hid, huser⟩ := findOneByIdUser_mem hf
          simp only [updateExpense, if_pos hv, hf]
          apply map_pair_saveById
          intro d hd hdi
          have : d = e0 := id_unique hnd hd hmem hdi
          rw [this]; rfl
    · simp [updateExpense, hv]

/-- C8, witness: from the empty store, one valid POST leaves a store whose
single document satisfies the invariant. -/
theorem c8_store_invariant_witness :
    (∀ e ∈ ([] : Db), ValidDoc e) ∧
    ValidDoc ⟨1, "Lunch", 5, "Food", ⟨2024, 1, 0⟩, 0⟩ := by
  refine ⟨by simp, ?_⟩
  have h := c8_store_invariant.1 []
    [MutOp.addOp 0 1 ⟨2024, 1, 0⟩ ⟨some "Lunch", some (some 5), some "Food", none⟩]
    (by simp)
  exact h _ (by decide)

/-- C1: per-user isolation.  Part one: two database states that agree on the
authenticated user's documents yield identical responses for list, get-by-id,
stats, summary, update and delete.  Part two (unique ids): update and delete
by user `u` never modify or delete a document of another user `v`. -/
theorem c1_per_user_isolation :
    (∀ (u : Nat) (db1 db2 : Db), userDocs u db1 = userDocs u db2 →
       (∀ q : ListQuery, (getExpenses db1 u q).1 = (getExpenses db2 u q).1) ∧
       (∀ ip : Option Nat, (getExpenseById db1 u ip).1 = (getExpenseById db2 u ip).1) ∧
       (∀ q : StatsQuery, (getExpenseStats db1 u q).1 = (getExpenseStats db2 u q).1) ∧
       ((getExpenseSummary db1 u).1 = (getExpenseSummary db2 u).1) ∧
       (∀ (ip : Option Nat) (b : ExpenseBody),
          (updateExpense db1 u ip b).1 = (updateExpense db2 u ip b).1) ∧
       (∀ ip : Option Nat, (deleteExpense db1 u ip).1 = (deleteExpense db2 u ip).1)) ∧
    (∀ (db : Db) (u v : Nat), v ≠ u → (db.map Expense.id).Nodup →
       (∀ (ip : Option Nat) (b : ExpenseBody),
          userDocs v ((updateExpense db u ip b).2.1) = userDocs v db) ∧
       (∀ ip : Option Nat,
          userDocs v ((deleteExpense db u ip).2.1) = userDocs v db)) := by
  constructor
  · intro u db1 db2 h12
    have hfind : ∀ i : Nat, findOneByIdUser i u db1 = findOneByIdUser i u db2 := by
      intro i
      unfold findOneByIdUser
      rw [find?_userDocs u _ (fun e he => by simpa using (Bool.and_eq_true _ _ |>.mp he).2) db1,
          find?_userDocs u _ (fun e he => by simpa using (Bool.and_eq_true _ _ |>.mp he).2) db2,
          h12]
    refine ⟨?_, ?_, ?_, ?_, ?_, ?_⟩
    · intro q
      have hfq : db1.filter (matchesListFilter u q) = db2.filter (matchesListFilter u q) := by
        rw [filter_userDocs u _ (fun e he => matchesListFilter_user he) db1,
            filter_userDocs u _ (fun e he => matchesListFilter_user he) db2, h12]
      simp only [getExpenses]
      rw [hfq]
    · intro ip
      rcases ip with _ | i
      · rfl
      · rcases hfo : findOneByIdUser i u db2 with _ | e <;>
          simp [getExpenseById, hfind i, hfo]
    · intro q
      have hfq : db1.filter (matchesStatsFilter u q) = db2.filter (matchesStatsFilter u q) := by
        rw [filter_userDocs u _ (fun e he => matchesStatsFilter_user he) db1,
            filter_userDocs u _ (fun e he => matchesStatsFilter_user he) db2, h12]
      simp only [getExpenseStats]
      rw [hfq]
    · have h12' : db1.filter (fun e => e.user = u) = db2.filter (fun e => e.user = u) := h12
      simp only [getExpenseSummary]
      rw [h12']
    · intro ip b
      by_cases hv : validateExpenseUpdate b = true
      · rcases ip with _ | i
        · simp [updateExpense, hv]
        · rcases hfo : findOneByIdUser i u db2 with _ | e <;>
            simp [updateExpense, hv, hfind i, hfo]
      · simp [updateExpense, hv]
    · intro ip
      rcases ip with _ | i
      · rfl
      · rcases hfo : findOneByIdUser i u db2 with _ | e <;>
          simp [deleteExpense, hfind i, hfo]
  · intro db u v hvu hnd
    constructor
    · intro ip b
      by_cases hv : validateExpenseUpdate b = true
      · rcases ip with _ | i
        · simp [updateExpense, hv]
        · rcases hfo : findOneByIdUser i u db with _ | e0
          · simp [updateExpense, hv, hfo]
          · obtain ⟨hmem, hid, huser⟩ := findOneByIdUser_mem hfo
            have hdb' : (updateExpense db u (some i) b).2.1 =
                saveById (applyUpdate b e0) db := by
              simp [updateExpense, hv, hfo]
            rw [hdb']
            apply userDocs_saveById
            · show e0.user ≠ v
              rw [huser]; exact hvu.symm
            · intro d hd hdi
              have : d = e0 := id_unique hnd hd hmem hdi
              rw [this, huser]; exact hvu.symm
      · simp [updateExpense, hv]
    · intro ip
      rcases ip with _ | i
      · rfl
      · rcases hfo : findOneByIdUser i u db with _ | e0
        · simp [deleteExpense, hfo]
        · obtain ⟨hmem, hid, huser⟩ := findOneByIdUser_mem hfo
          have hdb' : (deleteExpense db u (some i)).2.1 = deleteById i db := by
            simp [deleteExpense, hfo]
          rw [hdb']
          apply userDocs_deleteById
          intro d hd hdi
          have : d = e0 := id_unique hnd hd hmem (by rw [hdi, hid])
          rw [this, huser]; exact hvu.symm

/-- C1, witness: adding another user's document to the store does not change
user 0's summary response, and user 0 deleting their document leaves user 1's
view unchanged. -/
theorem c1_per_user_isolation_witness :
    (getExpenseSummary [⟨1, "a", 5, "Food", ⟨2024, 1, 0⟩, 0⟩] 0).1 =
      (getExpenseSummary [⟨1, "a", 5, "Food", ⟨2024, 1, 0⟩, 0⟩,
                          ⟨2, "b", 3, "Bills", ⟨2024, 2, 0⟩, 9⟩] 0).1 ∧
    userDocs 1 ((deleteExpense [⟨1, "a", 5, "Food", ⟨2024, 1, 0⟩, 0⟩] 0 (some 1)).2.1) =
      userDocs 1 [⟨1, "a", 5, "Food", ⟨2024, 1, 0⟩, 0⟩] :=
  ⟨(c1_per_user_isolation.1 0
      [⟨1, "a", 5, "Food", ⟨2024, 1, 0⟩, 0⟩]
      [⟨1, "a", 5, "Food", ⟨2024, 1, 0⟩, 0⟩, ⟨2, "b", 3, "Bills", ⟨2024, 2, 0⟩, 9⟩]
      (by decide)).2.2.2.1,
   (c1_per_user_isolation.2 [⟨1, "a", 5, "Food", ⟨2024, 1, 0⟩, 0⟩] 0 1
      (by decide) (by decide)).2 (some 1)⟩
